import Mathlib

/-!
Verification of the resolution-and-assembly engine of the csp-generator
repository.

The engine appears in several near-duplicate environment variants:

* `SecCSP` embeds the jsdom Node engine (`secure_csp_generator.ts`, the file
  staged as `src/unnamed/part_001`): directive store seeding, `resolveAndAdd`
  with its HTTPS and SSRF policy, `isPrivateIp`, the scanning `parse`, the
  streaming `fetchHtml`, the post-scan assembly and the serialisation of
  `generate`.
* `NonceVar` embeds the jsdom+nonce variant (`src/unnamed/part_000`): the
  same scanner, a text-based `fetchHtml` that checks the decoded string's
  length, and the constructor-time nonce `customNonce || (useNonce ? ... : '')`.
* `Browser` embeds the cheerio path of `src/src/csp-generator.browser.ts`,
  whose scanner adds raw attribute values to the directive sets directly.

External collaborators (WHATWG URL resolution, DNS, `net.isIP`, SHA-256,
the HTML parser and the JS regular-expression engine) are modelled as oracle
parameters gathered in `Env`/`BrowserEnv`; everything written in the
repository itself is translated directly.

JS runtime semantics reproduced here: a `Map` iterates in key-insertion
order and `map.set` of an existing key keeps its position; a `Set` iterates
in value-insertion order and inserting a duplicate is a no-op; a string is
truthy exactly when non-empty; `String.prototype.length` counts UTF-16 code
units.
-/

namespace CSP

/-- Decidable equality of `Except` results, so concrete runs of the engine
can be checked by `decide`. -/
instance {e a : Type} [DecidableEq e] [DecidableEq a] :
    DecidableEq (Except e a) := fun x y =>
  match x, y with
  | .error u, .error v => decidable_of_iff (u = v) (by simp)
  | .ok u, .ok v => decidable_of_iff (u = v) (by simp)
  | .error _, .ok _ => isFalse (by simp)
  | .ok _, .error _ => isFalse (by simp)

/-- JS `String.prototype.startsWith`, computed on the character list so that
concrete instances reduce in the kernel. -/
def strStartsWith (s pre : String) : Bool :=
  pre.data.isPrefixOf s.data

/-- JS `String.prototype.endsWith`. -/
def strEndsWith (s suf : String) : Bool :=
  suf.data.reverse.isPrefixOf s.data.reverse

/-- JS `String.prototype.trim`: strip leading and trailing whitespace. -/
def jsTrim (s : String) : String :=
  String.mk
    (((s.data.dropWhile Char.isWhitespace).reverse.dropWhile
      Char.isWhitespace).reverse)

/-- JS `String.prototype.includes`. -/
def containsSub (s pat : String) : Bool :=
  s.data.tails.any (fun t => pat.data.isPrefixOf t)

/-- One entry per directive, in `Map` insertion order; the value list is the
`Set` of tokens in insertion order (no duplicates are ever appended). -/
abbrev Store := List (String × List String)

/-- `Set.prototype.add`: appending is a no-op when the value is present. -/
def setAdd (xs : List String) (x : String) : List String :=
  if x ∈ xs then xs else xs ++ [x]

/-- `new Set(list)`: deduplicate keeping first occurrences. -/
def mkSet (l : List String) : List String :=
  l.foldl setAdd []

/-- `Map.prototype.get` (first entry with the key). -/
def storeGet (s : Store) (d : String) : Option (List String) :=
  match s with
  | [] => none
  | (k, v) :: rest => if k = d then some v else storeGet rest d

/-- `Map.prototype.set`: replace in place, or append a new entry. -/
def storeSet (s : Store) (d : String) (v : List String) : Store :=
  match s with
  | [] => [(d, v)]
  | (k, w) :: rest => if k = d then (d, v) :: rest else (k, w) :: storeSet rest d v

/-- `Map.prototype.has`. -/
def storeHas (s : Store) (d : String) : Bool :=
  (storeGet s d).isSome

/-- `this.ensureSet(dir).add(x)`: initialise the directive's set if missing,
then `Set.add`. -/
def ensureSetAdd (s : Store) (d : String) (x : String) : Store :=
  match storeGet s d with
  | some v => storeSet s d (setAdd v x)
  | none => s ++ [(d, [x])]

/-- A parsed element as the HTML document provider exposes it: tag name,
attribute list and text content. A document is its elements in document
order. -/
structure Element where
  tag : String
  attrs : List (String × String)
  text : String
deriving DecidableEq, Repr

abbrev Doc := List Element

def Element.getAttr (e : Element) (a : String) : Option String :=
  match e.attrs.find? (fun p => p.1 = a) with
  | some p => some p.2
  | none => none

def Element.attrHas (e : Element) (a : String) : Bool :=
  (e.getAttr a).isSome

/-- `el.getAttribute(a)` followed by a JS truthiness test (`if (val)`):
`some` exactly for a present, non-empty value. -/
def Element.truthyAttr (e : Element) (a : String) : Option String :=
  match e.getAttr a with
  | some v => if v = "" then none else some v
  | none => none

/-- The part of a resolved WHATWG `URL` object the engine reads. -/
structure URLRec where
  protocol : String
  hostname : String
  origin : String
deriving DecidableEq, Repr

/-- The options captured by the constructor of the jsdom engine
(`Required<SecureCSPGeneratorOptions>`); `fetchOptions`, `timeoutMs` and the
logger never influence the produced header and are omitted. -/
structure Options where
  allowHttp : Bool := false
  allowPrivateOrigins : Bool := false
  allowUnsafeInlineScript : Bool := false
  allowUnsafeInlineStyle : Bool := false
  allowUnsafeEval : Bool := false
  presets : List (String × List String) := []
  maxBodySize : Nat := 0
  requireTrustedTypes : Bool := false
deriving Repr

/-- The external collaborators of the Node engines, as oracles:
`net.isIP`, `dns.lookup(host, {all: true})` (addresses, or a rejection),
`new URL(token, this.url)` (`none` for a syntactically invalid token),
`createHash('sha256').update(code).digest('base64')`, the JS regex engine
runs of `cssUrlRe` (the second capture of each match), `cssImportRe` (the
first capture of each match) and the eval-detection regex, and the HTML
parser (`new JSDOM(html).window.document`). -/
structure Env where
  isIP : String → Bool
  dnsLookup : String → Except String (List String)
  resolveURL : String → Option URLRec
  sha256base64 : String → String
  cssUrlMatches : String → List String
  cssImportMatches : String → List String
  evalRegexTest : String → Bool
  parseHtml : String → Doc

/-- `/^172\.(1[6-9]|2\d|3[0-1])\./`: the second octets the regex accepts. -/
def octets172 : List String :=
  ["16", "17", "18", "19", "20", "21", "22", "23",
   "24", "25", "26", "27", "28", "29", "30", "31"]

/-- An HTTP response as the transport hands it to the engine. `bodyText` is
what `response.text()` (equivalently, decoding the concatenated chunks)
yields; `chunks` are the streamed body chunk sizes in bytes;
`contentLength` is the numeric coercion `+headers.get('content-length')`
(`0` when the header is absent, per JS `+null`). -/
structure HttpResponse where
  ok : Bool
  status : Nat
  statusText : String
  contentLength : Option Int
  chunks : List Nat
  bodyText : String
deriving Repr

def jsHeaderNum (h : Option Int) : Int :=
  h.getD 0

namespace SecCSP

/-- `isPrivateIp` of the engine: the private/loopback/link-local tests, each
regex translated to the string test it performs. -/
def isPrivateIp (ip : String) : Bool :=
  strStartsWith ip "10." || strStartsWith ip "192.168." ||
  octets172.any (fun p => strStartsWith ip ("172." ++ p ++ ".")) ||
  strStartsWith ip "127." || ip = "::1" || strStartsWith ip "fe80:"

/-- Constructor store: the mandatory defaults `default-src {'self'}` and
`object-src {'none'}`, then each preset entry is `Map.set` with
`new Set(list)`. -/
def initialSources (presets : List (String × List String)) : Store :=
  presets.foldl (fun s p => storeSet s p.1 (mkSet p.2))
    [("default-src", ["'self'"]), ("object-src", ["'none'"])]

/-- `resolveAndAdd(directive, rawSrc)` of the jsdom engine: trim; quoted
keyword / integrity tokens are added verbatim; otherwise resolve as a URL
(invalid tokens dropped), enforce HTTPS unless `allowHttp`, apply the SSRF
checks unless `allowPrivateOrigins` (a DNS rejection propagates as
`Except.error`), and add the resolved origin. -/
def resolveAndAdd (env : Env) (opts : Options) (st : Store)
    (directive : String) (rawSrc : String) : Except String Store :=
  let token := jsTrim rawSrc
  if strStartsWith token "'" || strEndsWith token "='" then
    .ok (ensureSetAdd st directive token)
  else
    match env.resolveURL token with
    | none => .ok st
    | some absolute =>
      if !opts.allowHttp && decide (absolute.protocol ≠ "https:") then .ok st
      else if !opts.allowPrivateOrigins then
        let host := absolute.hostname
        if host = "localhost" ∨ strEndsWith host ".local" = true then .ok st
        else if env.isIP host then
          if isPrivateIp host then .ok st
          else .ok (ensureSetAdd st directive absolute.origin)
        else
          match env.dnsLookup host with
          | .error e => .error e
          | .ok addrs =>
            if addrs.any isPrivateIp then .ok st
            else .ok (ensureSetAdd st directive absolute.origin)
      else .ok (ensureSetAdd st directive absolute.origin)

/-- `extractCssUrls(css, dir)`: every `url(...)` capture, then every
`@import` capture, through `resolveAndAdd` against `dir`. -/
def extractCssUrls (env : Env) (opts : Options) (st : Store)
    (css : String) (dir : String) : Except String Store := do
  let st ← (env.cssUrlMatches css).foldlM
    (fun s u => resolveAndAdd env opts s dir u) st
  (env.cssImportMatches css).foldlM
    (fun s u => resolveAndAdd env opts s dir u) st

/-- The scanner's mutable state: the directive store and the three scan
flags. -/
structure ScanState where
  sources : Store
  detectedInlineScript : Bool
  detectedInlineStyle : Bool
  detectedEval : Bool
deriving Repr

def initState (opts : Options) : ScanState :=
  { sources := initialSources opts.presets
    detectedInlineScript := false
    detectedInlineStyle := false
    detectedEval := false }

/-- One row of the `selectors` table: the elements `querySelectorAll(sel)`
returns are those matching the tag with the attribute present (plus the
`rel="stylesheet"` condition for the link row). -/
def selMatches (tag : String) (attr : String) (relStylesheet : Bool)
    (e : Element) : Bool :=
  e.tag = tag && e.attrHas attr &&
    (!relStylesheet || e.getAttr "rel" == some "stylesheet")

/-- The attribute values fed to `resolveAndAdd` by one selector row: each
matching element's attribute, kept when truthy. -/
def selValues (doc : Doc) (tag : String) (attr : String)
    (relStylesheet : Bool) : List String :=
  (doc.filter (selMatches tag attr relStylesheet)).filterMap
    (fun e => e.truthyAttr attr)

/-- `for (const el of querySelectorAll(sel)) { if (val) await resolveAndAdd }`. -/
def addAll (env : Env) (opts : Options) (st : Store) (dir : String)
    (vals : List String) : Except String Store :=
  vals.foldlM (fun s v => resolveAndAdd env opts s dir v) st

/-- The external-resource `selectors` loop of `parse`, row by row in source
order. -/
def parseSelectors (env : Env) (opts : Options) (doc : Doc) (st : Store) :
    Except String Store := do
  let st ← addAll env opts st "script-src" (selValues doc "script" "src" false)
  let st ← addAll env opts st "style-src" (selValues doc "link" "href" true)
  let st ← addAll env opts st "img-src" (selValues doc "img" "src" false)
  let st ← addAll env opts st "media-src" (selValues doc "audio" "src" false)
  let st ← addAll env opts st "media-src" (selValues doc "video" "src" false)
  let st ← addAll env opts st "media-src" (selValues doc "track" "src" false)
  addAll env opts st "frame-src" (selValues doc "iframe" "src" false)

/-- The `[style]` loop: every element with a style attribute sets the
inline-style flag and has the attribute's CSS scanned. -/
def parseStyleAttrs (env : Env) (opts : Options) (doc : Doc)
    (s : ScanState) : Except String ScanState :=
  (doc.filter (fun e => e.attrHas "style")).foldlM
    (fun acc el => do
      let src ← extractCssUrls env opts acc.sources
        ((el.getAttr "style").getD "") "style-src"
      .ok { acc with detectedInlineStyle := true, sources := src }) s

/-- The `style` element loop: flag, then the text content's CSS scanned. -/
def parseStyleEls (env : Env) (opts : Options) (doc : Doc)
    (s : ScanState) : Except String ScanState :=
  (doc.filter (fun e => e.tag = "style")).foldlM
    (fun acc el => do
      let src ← extractCssUrls env opts acc.sources el.text "style-src"
      .ok { acc with detectedInlineStyle := true, sources := src }) s

/-- The inline `<script>` classifier token for one element: the element's
nonce if present, else its quoted integrity value, else the base64 SHA-256
of the trimmed code. -/
def inlineToken (env : Env) (scr : Element) (code : String) : String :=
  if scr.attrHas "nonce" then
    "'nonce-" ++ (scr.getAttr "nonce").getD "" ++ "'"
  else if scr.attrHas "integrity" then
    "'" ++ (scr.getAttr "integrity").getD "" ++ "'"
  else
    "'sha256-" ++ env.sha256base64 code ++ "'"

/-- The inline `<script>` loop of `parse`: elements with a `src` attribute
are skipped; any other script sets the inline-script flag; non-empty trimmed
code routes the classifier token through `resolveAndAdd('script-src', ...)`. -/
def inlineScriptFold (env : Env) (opts : Options) (doc : Doc)
    (s : ScanState) : Except String ScanState :=
  (doc.filter (fun e => e.tag = "script")).foldlM
    (fun acc scr =>
      if scr.attrHas "src" then .ok acc
      else
        let acc := { acc with detectedInlineScript := true }
        let code := jsTrim scr.text
        if code = "" then .ok acc
        else do
          let src ← resolveAndAdd env opts acc.sources "script-src"
            (inlineToken env scr code)
          .ok { acc with sources := src }) s

/-- `parse()` of the jsdom engine: selectors, inline styles, style elements,
inline scripts, then the heuristic eval regex over the raw HTML. -/
def parse (env : Env) (opts : Options) (html : String) (st : ScanState) :
    Except String ScanState := do
  let doc := env.parseHtml html
  let src ← parseSelectors env opts doc st.sources
  let s1 ← parseStyleAttrs env opts doc { st with sources := src }
  let s2 ← parseStyleEls env opts doc s1
  let s3 ← inlineScriptFold env opts doc s2
  .ok { s3 with detectedEval := s3.detectedEval || env.evalRegexTest html }

/-- The streaming reader loop of the jsdom engine's `fetchHtml`: accumulate
chunk byte lengths and abort as soon as the running total exceeds a non-zero
`maxBodySize`. -/
def streamLoop (maxBodySize : Nat) (received : Nat) (chunks : List Nat) :
    Except String Nat :=
  match chunks with
  | [] => .ok received
  | c :: rest =>
    let received := received + c
    if maxBodySize ≠ 0 ∧ received > maxBodySize then
      .error "Response exceeded maxBodySize"
    else streamLoop maxBodySize received rest

/-- `fetchHtml()` of the jsdom engine: non-2xx is fatal; an oversized
`content-length` header is fatal; the body is streamed under the incremental
size check; the decoded text becomes `this.html`. The content-type test
only logs. -/
def fetchHtml (opts : Options) (r : HttpResponse) : Except String String :=
  if !r.ok then
    .error ("HTTP " ++ toString r.status ++ " " ++ r.statusText)
  else if opts.maxBodySize ≠ 0 ∧ jsHeaderNum r.contentLength > (opts.maxBodySize : Int) then
    .error "Response too large – aborting"
  else
    match streamLoop opts.maxBodySize 0 r.chunks with
    | .error e => .error e
    | .ok _ => .ok r.bodyText

/-- The conditional unsafe-directive block of `generate()` (the
`allowUnsafeEval`-else branch only logs a warning). -/
def unsafeAdds (opts : Options) (s : ScanState) : Store :=
  let src := s.sources
  let src := if s.detectedInlineScript && opts.allowUnsafeInlineScript then
      ensureSetAdd src "script-src" "'unsafe-inline'" else src
  let src := if s.detectedInlineStyle && opts.allowUnsafeInlineStyle then
      ensureSetAdd src "style-src" "'unsafe-inline'" else src
  if opts.allowUnsafeEval then
    ensureSetAdd src "script-src" "'unsafe-eval'" else src

/-- The trusted-types block: `sources.set(...)` overwrites any existing
`require-trusted-types-for` entry. -/
def trustedTypesStep (opts : Options) (src : Store) : Store :=
  if opts.requireTrustedTypes then
    storeSet src "require-trusted-types-for" ["'script'"] else src

/-- The mixed-content block: each flag directive is created with an empty
set only when it is not already present. -/
def mixedContentStep (src : Store) : Store :=
  let src := if !storeHas src "upgrade-insecure-requests" then
      storeSet src "upgrade-insecure-requests" [] else src
  if !storeHas src "block-all-mixed-content" then
    storeSet src "block-all-mixed-content" [] else src

/-- The `default-src` fail-closed fallback of `generate()`. -/
def defaultFallback (src : Store) : Store :=
  match storeGet src "default-src" with
  | none => storeSet src "default-src" ["'none'"]
  | some l => if l.isEmpty then storeSet src "default-src" ["'none'"] else src

/-- The post-scan assembly of `generate()`, its blocks in source order. -/
def assemble (opts : Options) (s : ScanState) : Store :=
  defaultFallback (mixedContentStep (trustedTypesStep opts (unsafeAdds opts s)))

/-- The serialisation loop of `generate()`: push the bare directive name for
an empty set, else the name and the space-joined tokens. -/
def serializeParts (s : Store) : List String :=
  s.foldl (fun parts p =>
    if p.2.isEmpty then parts ++ [p.1]
    else parts ++ [p.1 ++ " " ++ String.intercalate " " p.2]) []

def serialize (s : Store) : String :=
  String.intercalate "; " (serializeParts s)

/-- `generate()` up to its final header store: fetch, parse, assemble. -/
def finalStore (env : Env) (opts : Options) (r : HttpResponse) :
    Except String Store := do
  let html ← fetchHtml opts r
  let s ← parse env opts html (initState opts)
  .ok (assemble opts s)

/-- `generate()` of the jsdom engine. -/
def generate (env : Env) (opts : Options) (r : HttpResponse) :
    Except String String :=
  (finalStore env opts r).map serialize

end SecCSP

/-- JS `String.prototype.length`: the number of UTF-16 code units. -/
def utf16Length (s : String) : Nat :=
  s.data.foldl (fun n c => n + (if c.toNat ≥ 65536 then 2 else 1)) 0

namespace NonceVar

/-- The extra options of the jsdom+nonce variant. -/
structure NonceOptions extends Options where
  useNonce : Bool := true
  customNonce : String := ""

/-- `this.nonce = customNonce || (useNonce ? this.generateNonce() : '')`;
`randNonce` is the value `generateNonce()` (the random collaborator) would
produce. -/
def nonceValue (useNonce : Bool) (customNonce : String) (randNonce : String) :
    String :=
  if customNonce ≠ "" then customNonce
  else if useNonce then randNonce else ""

/-- `fetchHtml()` of the text-based variant: non-2xx fatal, oversized
`content-length` header fatal, then `this.html = await response.text()` and
a post-hoc check of the decoded string's `.length` (UTF-16 code units)
against `maxBodySize`. -/
def fetchHtmlText (opts : Options) (r : HttpResponse) : Except String String :=
  if !r.ok then
    .error ("HTTP " ++ toString r.status ++ " " ++ r.statusText)
  else if opts.maxBodySize ≠ 0 ∧ jsHeaderNum r.contentLength > (opts.maxBodySize : Int) then
    .error "Response too large – aborting"
  else if opts.maxBodySize ≠ 0 ∧ utf16Length r.bodyText > opts.maxBodySize then
    .error "Response exceeded maxBodySize"
  else .ok r.bodyText

/-- `generate()` of the jsdom+nonce variant: text-based fetch, the same
scanner, then — before the conditional unsafe directives — the nonce block
adds `'nonce-<value>'` and `'strict-dynamic'` to script-src when the
constructor-time nonce is truthy. -/
def generate (env : Env) (randNonce : String) (nopts : NonceOptions)
    (r : HttpResponse) : Except String String := do
  let nonce := nonceValue nopts.useNonce nopts.customNonce randNonce
  let html ← fetchHtmlText nopts.toOptions r
  let s ← SecCSP.parse env nopts.toOptions html (SecCSP.initState nopts.toOptions)
  let src :=
    if nonce ≠ "" then
      ensureSetAdd (ensureSetAdd s.sources "script-src" ("'nonce-" ++ nonce ++ "'"))
        "script-src" "'strict-dynamic'"
    else s.sources
  .ok (SecCSP.serialize (SecCSP.assemble nopts.toOptions { s with sources := src }))

end NonceVar

namespace Browser

/-- The extra options read by the browser variant's constructor. -/
structure BrowserOptions extends Options where
  useStrictDynamic : Bool := false
  useNonce : Bool := false
  useHashes : Bool := false
  upgradeInsecureRequests : Bool := true
  blockMixedContent : Bool := true
  restrictFraming : Bool := false
  useSandbox : Bool := false

/-- The browser variant's collaborators: the cheerio HTML parser, the hex
SHA-256 digest of `generateHash`, the regex engine runs of `cssUrlRe`,
`cssImportRe`, the `@font-face` extraction (the inner `url(...)` target of
each match), the connect-src URL literal matches (quotes included, as
`String.prototype.match` returns them), the eval regex, and the value
`generateNonce()` would produce. -/
structure BrowserEnv where
  parseHtml : String → Doc
  sha256hex : String → String
  cssUrlMatches : String → List String
  cssImportMatches : String → List String
  fontFaceUrlMatches : String → List String
  connectUrlMatches : String → List String
  evalRegexTest : String → Bool
  randNonce : String

/-- `generateHash(content)`: the quoted hex SHA-256 source token. -/
def generateHash (benv : BrowserEnv) (content : String) : String :=
  "'sha256-" ++ benv.sha256hex content ++ "'"

/-- JS `String.prototype.includes`. -/
def jsIncludes (s pat : String) : Bool :=
  containsSub s pat

/-- `url.replace(/['"]/g, '')`. -/
def stripQuoteChars (s : String) : String :=
  String.mk (s.data.filter (fun c => c ≠ Char.ofNat 39 ∧ c ≠ '"'))

/-- The constructor-time nonce: generated only when `useNonce` (otherwise
the field stays `null`, modelled as the likewise-falsy empty string). -/
def bNonce (bopts : BrowserOptions) (benv : BrowserEnv) : String :=
  if bopts.useNonce then benv.randNonce else ""

/-- The first `$('script').each` of the browser scanner: a truthy `src` is
added to script-src verbatim; otherwise truthy text sets the inline-script
flag and adds the config nonce token when `useNonce`. The hash promises
pushed when `useHashes` resolve after the loop (`await Promise.all`), so
their tokens are appended afterwards, in element order. -/
def scanScripts (benv : BrowserEnv) (bopts : BrowserOptions) (doc : Doc)
    (s : SecCSP.ScanState) : SecCSP.ScanState :=
  let s := (doc.filter (fun e => e.tag = "script")).foldl
    (fun acc scr =>
      match scr.truthyAttr "src" with
      | some src =>
        { acc with sources := ensureSetAdd acc.sources "script-src" src }
      | none =>
        if scr.text ≠ "" then
          let acc := { acc with detectedInlineScript := true }
          if bopts.useNonce && decide (bNonce bopts benv ≠ "") then
            let tok := "'nonce-" ++ bNonce bopts benv ++ "'"
            { acc with sources := ensureSetAdd acc.sources "script-src" tok }
          else acc
        else acc) s
  if bopts.useHashes then
    let inline := doc.filter
      (fun e => e.tag = "script" && (e.truthyAttr "src").isNone && decide (e.text ≠ ""))
    let src := inline.foldl
      (fun src scr => ensureSetAdd src "script-src" (generateHash benv scr.text))
      s.sources
    { s with sources := src }
  else s

/-- The browser `extractCssUrls`: every regex capture is added verbatim. -/
def extractCssUrls (benv : BrowserEnv) (st : Store) (css : String)
    (dir : String) : Store :=
  let st := (benv.cssUrlMatches css).foldl (fun s u => ensureSetAdd s dir u) st
  (benv.cssImportMatches css).foldl (fun s u => ensureSetAdd s dir u) st

/-- `$('style').each`: truthy text sets the flag, is scanned for CSS URLs
against style-src, and its `@font-face` `url(...)` targets go to font-src. -/
def scanStyleEls (benv : BrowserEnv) (doc : Doc) (s : SecCSP.ScanState) :
    SecCSP.ScanState :=
  (doc.filter (fun e => e.tag = "style")).foldl
    (fun acc el =>
      if el.text ≠ "" then
        let src := extractCssUrls benv acc.sources el.text "style-src"
        let src := (benv.fontFaceUrlMatches el.text).foldl
          (fun st u => ensureSetAdd st "font-src" u) src
        { acc with detectedInlineStyle := true, sources := src }
      else acc) s

/-- `$('[style]').each`: a truthy style attribute sets the flag and is
scanned for CSS URLs. -/
def scanStyleAttrs (benv : BrowserEnv) (doc : Doc) (s : SecCSP.ScanState) :
    SecCSP.ScanState :=
  (doc.filter (fun e => e.attrHas "style")).foldl
    (fun acc el =>
      match el.truthyAttr "style" with
      | some styleAttr =>
        let src := extractCssUrls benv acc.sources styleAttr "style-src"
        { acc with detectedInlineStyle := true, sources := src }
      | none => acc) s

/-- `$('link').each`: route a truthy `href` by `rel` (stylesheet, manifest,
preload/prefetch of a font). -/
def scanLinks (doc : Doc) (st : Store) : Store :=
  (doc.filter (fun e => e.tag = "link")).foldl
    (fun src link =>
      match link.truthyAttr "href" with
      | none => src
      | some href =>
        match link.getAttr "rel" with
        | some "stylesheet" => ensureSetAdd src "style-src" href
        | some "manifest" => ensureSetAdd src "manifest-src" href
        | some rel =>
          if rel = "preload" ∨ rel = "prefetch" then
            if link.getAttr "as" == some "font" then
              ensureSetAdd src "font-src" href
            else src
          else src
        | none => src) st

/-- One raw-attribute scan loop (`img`, `iframe`, `video`, `form`,
`script[type="text/worker"]`): each truthy value added verbatim. -/
def scanRawAttr (doc : Doc) (keep : Element → Bool) (attr : String)
    (dir : String) (st : Store) : Store :=
  (doc.filter keep).foldl
    (fun src el =>
      match el.truthyAttr attr with
      | some v => ensureSetAdd src dir v
      | none => src) st

/-- `$('base').attr('href')`: the first `base` element's attribute. -/
def baseHref (doc : Doc) : Option String :=
  match doc.filter (fun e => e.tag = "base") with
  | [] => none
  | b :: _ => b.getAttr "href"

/-- The connect-src heuristic: scripts whose text mentions `fetch(`,
`new WebSocket(` or `new EventSource(` have each matched quoted URL literal
stripped of quote characters and added to connect-src. -/
def scanConnect (benv : BrowserEnv) (doc : Doc) (st : Store) : Store :=
  (doc.filter (fun e => e.tag = "script")).foldl
    (fun src scr =>
      let content := scr.text
      if content ≠ "" ∧ (jsIncludes content "fetch(" ||
          jsIncludes content "new WebSocket(" ||
          jsIncludes content "new EventSource(") then
        (benv.connectUrlMatches content).foldl
          (fun s url => ensureSetAdd s "connect-src" (stripQuoteChars url)) src
      else src) st

/-- `parse()` of the browser variant (cheerio path), in source order, ending
with the security-feature additions and the eval regex. -/
def parse (benv : BrowserEnv) (bopts : BrowserOptions) (html : String)
    (st : SecCSP.ScanState) : SecCSP.ScanState :=
  let doc := benv.parseHtml html
  let s := scanScripts benv bopts doc st
  let s := scanStyleEls benv doc s
  let s := scanStyleAttrs benv doc s
  let s := { s with sources := scanLinks doc s.sources }
  let src1 := scanRawAttr doc (fun e => e.tag = "img") "src" "img-src" s.sources
  let src2 := scanRawAttr doc (fun e => e.tag = "iframe") "src" "frame-src" src1
  let src3 := scanRawAttr doc (fun e => e.tag = "video") "src" "media-src" src2
  let src4 := scanRawAttr doc (fun e => e.tag = "form") "action" "form-action" src3
  let src5 := match baseHref doc with
    | some b => if b ≠ "" then ensureSetAdd src4 "base-uri" b else src4
    | none => src4
  let workerSel := fun (e : Element) =>
    e.tag = "script" && e.getAttr "type" == some "text/worker"
  let src6 := scanRawAttr doc workerSel "src" "worker-src" src5
  let src7 := scanConnect benv doc src6
  let src8 := if bopts.useStrictDynamic then
    ensureSetAdd src7 "script-src" "'strict-dynamic'" else src7
  let src9 := if bopts.useNonce && decide (bNonce bopts benv ≠ "") then
    ensureSetAdd src8 "script-src" ("'nonce-" ++ bNonce bopts benv ++ "'") else src8
  let srcA := if bopts.upgradeInsecureRequests then
    ensureSetAdd src9 "upgrade-insecure-requests" "" else src9
  let srcB := if bopts.blockMixedContent then
    ensureSetAdd srcA "block-all-mixed-content" "" else srcA
  let srcC := if bopts.restrictFraming then
    ensureSetAdd srcB "frame-ancestors" "'none'" else srcB
  let srcD := if bopts.useSandbox then
    ensureSetAdd srcC "sandbox" "allow-scripts allow-same-origin allow-forms allow-popups"
    else srcC
  let ev := s.detectedEval || benv.evalRegexTest html
  { s with sources := srcD, detectedEval := ev }

/-- The browser `fetchHtml()`: non-2xx fatal, oversized `content-length`
header fatal, then the decoded text (no further size enforcement). -/
def fetchHtml (bopts : BrowserOptions) (r : HttpResponse) :
    Except String String :=
  if !r.ok then
    .error ("HTTP " ++ toString r.status ++ " " ++ r.statusText)
  else if bopts.maxBodySize ≠ 0 ∧
      jsHeaderNum r.contentLength > (bopts.maxBodySize : Int) then
    .error ("Response too large (" ++ toString (jsHeaderNum r.contentLength) ++
      " > " ++ toString bopts.maxBodySize ++ " bytes)")
  else .ok r.bodyText

/-- The browser `generate()` after parsing: the conditional unsafe
directives, then the overwriting feature directives, the mixed-content
resets, the `default-src` fallback. -/
def assemble (bopts : BrowserOptions) (s : SecCSP.ScanState) : Store :=
  let src := s.sources
  let src := if s.detectedInlineScript && bopts.allowUnsafeInlineScript then
      ensureSetAdd src "script-src" "'unsafe-inline'" else src
  let src := if s.detectedInlineStyle && bopts.allowUnsafeInlineStyle then
      ensureSetAdd src "style-src" "'unsafe-inline'" else src
  let src := if bopts.allowUnsafeEval then
      ensureSetAdd src "script-src" "'unsafe-eval'" else src
  let src := if bopts.requireTrustedTypes then
      storeSet src "require-trusted-types-for" ["'script'"] else src
  let src := if bopts.useStrictDynamic then
      ensureSetAdd src "script-src" "'strict-dynamic'" else src
  let src := if bopts.restrictFraming then
      storeSet src "frame-ancestors" ["'none'"] else src
  let src := if bopts.useSandbox then
      storeSet src "sandbox"
        ["allow-scripts", "allow-same-origin", "allow-forms", "allow-popups"]
      else src
  let src := if bopts.upgradeInsecureRequests then
      storeSet src "upgrade-insecure-requests" [] else src
  let src := if bopts.blockMixedContent then
      storeSet src "block-all-mixed-content" [] else src
  match storeGet src "default-src" with
  | none => storeSet src "default-src" ["'none'"]
  | some l => if l.isEmpty then storeSet src "default-src" ["'none'"] else src

/-- `generate()` of the browser variant up to its final header store. -/
def finalStore (benv : BrowserEnv) (bopts : BrowserOptions)
    (r : HttpResponse) : Except String Store := do
  let html ← fetchHtml bopts r
  let s := parse benv bopts html (SecCSP.initState bopts.toOptions)
  .ok (assemble bopts s)

/-- `generate()` of the browser variant (its serialisation loop is
character-for-character the jsdom engine's). -/
def generate (benv : BrowserEnv) (bopts : BrowserOptions)
    (r : HttpResponse) : Except String String :=
  (finalStore benv bopts r).map SecCSP.serialize

end Browser

/-! Concrete fixtures: closed collaborator instantiations and inputs used by
witnesses and counterexamples. -/

/-- A Node-engine collaborator set for pages with no resolvable URLs: the
DNS answer is a public address, URL resolution fails, the HTML parser sees
an empty document. -/
def envTriv : Env :=
  { isIP := fun _ => false
    dnsLookup := fun _ => .ok ["93.184.216.34"]
    resolveURL := fun _ => none
    sha256base64 := fun _ => "B64HASH"
    cssUrlMatches := fun _ => []
    cssImportMatches := fun _ => []
    evalRegexTest := fun _ => false
    parseHtml := fun _ => [] }

/-- A successful empty HTML response. -/
def respTriv : HttpResponse :=
  { ok := true, status := 200, statusText := "OK", contentLength := none,
    chunks := [], bodyText := "" }

/-- Collaborators for the DNS-failure run: the page holds one external
script on `internal.example.com`, a hostname whose lookup fails. -/
def envDnsFail : Env :=
  { isIP := fun _ => false
    dnsLookup := fun _ => .error "EAI_AGAIN internal.example.com"
    resolveURL := fun s =>
      if s = "https://internal.example.com/a.js" then
        some { protocol := "https:", hostname := "internal.example.com",
               origin := "https://internal.example.com" }
      else none
    sha256base64 := fun _ => "B64HASH"
    cssUrlMatches := fun _ => []
    cssImportMatches := fun _ => []
    evalRegexTest := fun _ => false
    parseHtml := fun _ =>
      [{ tag := "script", attrs := [("src", "https://internal.example.com/a.js")],
         text := "" }] }

/-- Browser-engine collaborators for a page with one insecure external
script. -/
def benvHttp : Browser.BrowserEnv :=
  { parseHtml := fun _ =>
      [{ tag := "script", attrs := [("src", "http://insecure.example.com/a.js")],
         text := "" }]
    sha256hex := fun _ => "HEXHASH"
    cssUrlMatches := fun _ => []
    cssImportMatches := fun _ => []
    fontFaceUrlMatches := fun _ => []
    connectUrlMatches := fun _ => []
    evalRegexTest := fun _ => false
    randNonce := "" }

/-- Browser-engine collaborators for a page with one inline script carrying
no nonce or integrity attribute. -/
def benvInline : Browser.BrowserEnv :=
  { parseHtml := fun _ =>
      [{ tag := "script", attrs := [], text := "console.log(1)" }]
    sha256hex := fun _ => "HEXHASH"
    cssUrlMatches := fun _ => []
    cssImportMatches := fun _ => []
    fontFaceUrlMatches := fun _ => []
    connectUrlMatches := fun _ => []
    evalRegexTest := fun _ => false
    randNonce := "" }

/-- An inline script element with a nonce attribute. -/
def scrNonce : Element :=
  { tag := "script", attrs := [("nonce", "abc123")], text := "console.log(1)" }

/-- The 2-character, 4-UTF-8-byte response body `éé` with no
`content-length` header. -/
def respMultibyte : HttpResponse :=
  { ok := true, status := 200, statusText := "OK", contentLength := none,
    chunks := [2, 2], bodyText := "éé" }

/-- Options carrying a preset for a directive the assembly overwrites. -/
def optsRttPreset : Options :=
  { presets := [("require-trusted-types-for", ["'preset-token'"])],
    requireTrustedTypes := true }

/-- Options carrying an ordinary connect-src preset. -/
def optsConnectPreset : Options :=
  { presets := [("connect-src", ["https://api.example.com"])] }

/-- The final store of the run with the connect-src preset, extracted for
the C6 witness. -/
def finConnectPreset : Store :=
  match SecCSP.finalStore envTriv optsConnectPreset respTriv with
  | .ok f => f
  | .error _ => []

/-- The final store of a default run, extracted for witnesses. -/
def finTriv : Store :=
  match SecCSP.finalStore envTriv {} respTriv with
  | .ok f => f
  | .error _ => []

/-! Store lemmas: how `storeGet` interacts with the mutation primitives. -/

theorem storeGet_storeSet_self (s : Store) (d : String) (v : List String) :
    storeGet (storeSet s d v) d = some v := by
  induction s with
  | nil => simp [storeSet, storeGet]
  | cons p rest ih =>
    by_cases h : p.1 = d
    · simp [storeSet, storeGet, h]
    · simp [storeSet, storeGet, h, ih]

theorem storeGet_storeSet_ne (s : Store) (d d' : String) (v : List String)
    (h : d' ≠ d) : storeGet (storeSet s d v) d' = storeGet s d' := by
  induction s with
  | nil =>
    simp only [storeSet, storeGet]
    rw [if_neg (Ne.symm h)]
  | cons p rest ih =>
    obtain ⟨k, w⟩ := p
    by_cases hp : k = d
    · subst hp
      simp only [storeSet, if_true, storeGet]
      rw [if_neg (Ne.symm h), if_neg (Ne.symm h)]
    · simp only [storeSet, hp, if_false, storeGet]
      by_cases hq : k = d' <;> simp [hq, ih]

theorem storeGet_append (s t : Store) (d : String) :
    storeGet (s ++ t) d =
      match storeGet s d with
      | some v => some v
      | none => storeGet t d := by
  induction s with
  | nil => simp [storeGet]
  | cons p rest ih =>
    by_cases h : p.1 = d
    · simp [storeGet, h]
    · simp [storeGet, h, ih]

theorem storeGet_ensure_self (s : Store) (d x : String) :
    storeGet (ensureSetAdd s d x) d =
      some (setAdd ((storeGet s d).getD []) x) := by
  unfold ensureSetAdd
  cases h : storeGet s d with
  | some v => simp [h, storeGet_storeSet_self]
  | none => simp [h, storeGet_append, setAdd, storeGet]

theorem storeGet_ensure_ne (s : Store) (d d' x : String) (h : d' ≠ d) :
    storeGet (ensureSetAdd s d x) d' = storeGet s d' := by
  unfold ensureSetAdd
  cases hg : storeGet s d with
  | some v => simp [storeGet_storeSet_ne s d d' _ h]
  | none =>
    rw [storeGet_append]
    cases hg' : storeGet s d' with
    | some w => simp
    | none =>
      simp only [storeGet]
      rw [if_neg (Ne.symm h)]

theorem mem_setAdd_self (l : List String) (x : String) : x ∈ setAdd l x := by
  unfold setAdd
  by_cases h : x ∈ l <;> simp [h]

theorem mem_setAdd_of_mem (l : List String) (x y : String) (h : y ∈ l) :
    y ∈ setAdd l x := by
  unfold setAdd
  by_cases hx : x ∈ l <;> simp [hx, h]

theorem setAdd_ne_nil (l : List String) (x : String) : setAdd l x ≠ [] := by
  unfold setAdd
  by_cases h : x ∈ l
  · simp only [h, if_true]
    rintro rfl
    exact absurd h (List.not_mem_nil x)
  · simp [h]

theorem mem_foldl_setAdd_of_mem (l : List String) (acc : List String)
    (y : String) (h : y ∈ acc) : y ∈ l.foldl setAdd acc := by
  induction l generalizing acc with
  | nil => simpa using h
  | cons a l ih => exact ih (setAdd acc a) (mem_setAdd_of_mem acc a y h)

theorem mem_foldl_setAdd (l : List String) (acc : List String) (x : String)
    (h : x ∈ l) : x ∈ l.foldl setAdd acc := by
  induction l generalizing acc with
  | nil => cases h
  | cons a l ih =>
    rcases List.mem_cons.mp h with rfl | hx
    · exact mem_foldl_setAdd_of_mem l (setAdd acc x) x (mem_setAdd_self acc x)
    · exact ih (setAdd acc a) hx

theorem mem_mkSet (l : List String) (x : String) (h : x ∈ l) : x ∈ mkSet l :=
  mem_foldl_setAdd l [] x h

theorem storeGet_mem (s : Store) (d : String) (l : List String)
    (h : storeGet s d = some l) : (d, l) ∈ s := by
  induction s with
  | nil => simp [storeGet] at h
  | cons p rest ih =>
    obtain ⟨k, w⟩ := p
    by_cases hp : k = d
    · subst hp
      simp only [storeGet, if_true, Option.some.injEq] at h
      subst h
      exact List.mem_cons_self _ _
    · simp only [storeGet, hp, if_false] at h
      exact List.mem_cons_of_mem _ (ih h)

/-- "Token `t` stands in directive `d`'s set" — the store property every
scanning step preserves. -/
def StoreMem (d t : String) (s : Store) : Prop :=
  ∃ l, storeGet s d = some l ∧ t ∈ l

theorem storeMem_ensure (d t : String) (s : Store) (d' x : String)
    (h : StoreMem d t s) : StoreMem d t (ensureSetAdd s d' x) := by
  obtain ⟨l, hl, ht⟩ := h
  by_cases hd : d = d'
  · subst hd
    exact ⟨_, storeGet_ensure_self s d x,
      by rw [hl]; exact mem_setAdd_of_mem l x t ht⟩
  · exact ⟨l, by rw [storeGet_ensure_ne s d' d x hd, hl], ht⟩

theorem storeMem_storeSet_ne (d t : String) (s : Store) (d' : String)
    (v : List String) (hne : d ≠ d') (h : StoreMem d t s) :
    StoreMem d t (storeSet s d' v) := by
  obtain ⟨l, hl, ht⟩ := h
  exact ⟨l, by rw [storeGet_storeSet_ne s d' d v hne, hl], ht⟩

/-! Preservation through the scanner: every store mutation `parse` performs
is an `ensureSetAdd` against one of the five directives of the selector
table, the CSS extractor or the inline-script classifier. -/

theorem bind_ok_elim {β γ : Type} (e : Except String β)
    (f : β → Except String γ) (c : γ) (h : (e >>= f) = .ok c) :
    ∃ b, e = .ok b ∧ f b = .ok c := by
  cases e with
  | error x => exact Except.noConfusion h
  | ok b => exact ⟨b, rfl, h⟩

theorem foldlM_except_pres {α β : Type} (P : β → Prop)
    (f : β → α → Except String β)
    (hf : ∀ b a b', f b a = .ok b' → P b → P b') :
    ∀ (l : List α) (b b' : β), List.foldlM f b l = .ok b' → P b → P b' := by
  intro l
  induction l with
  | nil =>
    intro b b' h hb
    simp only [List.foldlM_nil] at h
    injection h with h
    exact h ▸ hb
  | cons a l ih =>
    intro b b' h hb
    rw [List.foldlM_cons] at h
    cases hfa : f b a with
    | error e =>
      rw [hfa] at h
      exact Except.noConfusion h
    | ok b1 =>
      rw [hfa] at h
      exact ih b1 b' h (hf b a b1 hfa hb)

namespace SecCSP

/-- Every `Except.ok` leaf of `resolveAndAdd` returns the store unchanged or
with a single `ensureSetAdd` against the target directive. -/
theorem resolveAndAdd_ok_cases (env : Env) (opts : Options) (st : Store)
    (d raw : String) (st' : Store)
    (h : resolveAndAdd env opts st d raw = .ok st') :
    st' = st ∨ ∃ x, st' = ensureSetAdd st d x := by
  simp only [resolveAndAdd] at h
  repeat' split at h
  all_goals first
    | exact Except.noConfusion h
    | exact Or.inl (by injection h with h; exact h.symm)
    | exact Or.inr ⟨_, by injection h with h; exact h.symm⟩

theorem resolveAndAdd_storeMem (env : Env) (opts : Options) (s : Store)
    (d' raw : String) (s' : Store) (d t : String)
    (h : resolveAndAdd env opts s d' raw = .ok s') (hm : StoreMem d t s) :
    StoreMem d t s' := by
  rcases resolveAndAdd_ok_cases env opts s d' raw s' h with rfl | ⟨x, rfl⟩
  · exact hm
  · exact storeMem_ensure d t s d' x hm

theorem resolveAndAdd_get_ne (env : Env) (opts : Options) (s : Store)
    (d' raw : String) (s' : Store) (d : String) (hne : d ≠ d')
    (h : resolveAndAdd env opts s d' raw = .ok s') :
    storeGet s' d = storeGet s d := by
  rcases resolveAndAdd_ok_cases env opts s d' raw s' h with rfl | ⟨x, rfl⟩
  · rfl
  · exact storeGet_ensure_ne s d' d x hne

/-- The directives the scanner ever adds against. -/
def scanDirs : List String :=
  ["script-src", "style-src", "img-src", "media-src", "frame-src"]

/-- A store property closed under the scanner's additions. -/
def ScanClosed (P : Store → Prop) : Prop :=
  ∀ s dd x, dd ∈ scanDirs → P s → P (ensureSetAdd s dd x)

theorem addAll_pres (P : Store → Prop) (hP : ScanClosed P) (env : Env)
    (opts : Options) (st : Store) (dir : String) (hdir : dir ∈ scanDirs)
    (vals : List String) (st' : Store)
    (h : addAll env opts st dir vals = .ok st') (hp : P st) : P st' := by
  refine foldlM_except_pres P _ ?_ vals st st' h hp
  intro b a b' hb hpb
  rcases resolveAndAdd_ok_cases env opts b dir a b' hb with rfl | ⟨x, rfl⟩
  · exact hpb
  · exact hP b dir x hdir hpb

theorem extractCssUrls_pres (P : Store → Prop) (hP : ScanClosed P)
    (env : Env) (opts : Options) (st : Store) (css dir : String)
    (hdir : dir ∈ scanDirs) (st' : Store)
    (h : extractCssUrls env opts st css dir = .ok st') (hp : P st) : P st' := by
  simp only [extractCssUrls] at h
  cases h1 : (env.cssUrlMatches css).foldlM
      (fun s u => resolveAndAdd env opts s dir u) st with
  | error e => rw [h1] at h; exact Except.noConfusion h
  | ok st1 =>
    rw [h1] at h
    have hp1 : P st1 := by
      refine foldlM_except_pres P _ ?_ _ st st1 h1 hp
      intro b a b' hb hpb
      rcases resolveAndAdd_ok_cases env opts b dir a b' hb with rfl | ⟨x, rfl⟩
      · exact hpb
      · exact hP b dir x hdir hpb
    refine foldlM_except_pres P _ ?_ _ st1 st' h hp1
    intro b a b' hb hpb
    rcases resolveAndAdd_ok_cases env opts b dir a b' hb with rfl | ⟨x, rfl⟩
    · exact hpb
    · exact hP b dir x hdir hpb

theorem parseSelectors_pres (P : Store → Prop) (hP : ScanClosed P)
    (env : Env) (opts : Options) (doc : Doc) (st st' : Store)
    (h : parseSelectors env opts doc st = .ok st') (hp : P st) : P st' := by
  simp only [parseSelectors] at h
  obtain ⟨s1, h1, h⟩ := bind_ok_elim _ _ _ h
  obtain ⟨s2, h2, h⟩ := bind_ok_elim _ _ _ h
  obtain ⟨s3, h3, h⟩ := bind_ok_elim _ _ _ h
  obtain ⟨s4, h4, h⟩ := bind_ok_elim _ _ _ h
  obtain ⟨s5, h5, h⟩ := bind_ok_elim _ _ _ h
  obtain ⟨s6, h6, h⟩ := bind_ok_elim _ _ _ h
  have p1 := addAll_pres P hP env opts st _ (by simp [scanDirs]) _ s1 h1 hp
  have p2 := addAll_pres P hP env opts s1 _ (by simp [scanDirs]) _ s2 h2 p1
  have p3 := addAll_pres P hP env opts s2 _ (by simp [scanDirs]) _ s3 h3 p2
  have p4 := addAll_pres P hP env opts s3 _ (by simp [scanDirs]) _ s4 h4 p3
  have p5 := addAll_pres P hP env opts s4 _ (by simp [scanDirs]) _ s5 h5 p4
  have p6 := addAll_pres P hP env opts s5 _ (by simp [scanDirs]) _ s6 h6 p5
  exact addAll_pres P hP env opts s6 _ (by simp [scanDirs]) _ st' h p6

theorem parseStyleAttrs_pres (P : Store → Prop) (hP : ScanClosed P)
    (env : Env) (opts : Options) (doc : Doc) (s s' : ScanState)
    (h : parseStyleAttrs env opts doc s = .ok s') (hp : P s.sources) :
    P s'.sources := by
  refine foldlM_except_pres (fun st => P st.sources) _ ?_ _ s s' h hp
  intro b a b' hb hpb
  obtain ⟨src, hsrc, hb2⟩ := bind_ok_elim _ _ _ hb
  injection hb2 with hb2
  subst hb2
  exact extractCssUrls_pres P hP env opts b.sources _ _ (by simp [scanDirs])
    src hsrc hpb

theorem parseStyleEls_pres (P : Store → Prop) (hP : ScanClosed P)
    (env : Env) (opts : Options) (doc : Doc) (s s' : ScanState)
    (h : parseStyleEls env opts doc s = .ok s') (hp : P s.sources) :
    P s'.sources := by
  refine foldlM_except_pres (fun st => P st.sources) _ ?_ _ s s' h hp
  intro b a b' hb hpb
  obtain ⟨src, hsrc, hb2⟩ := bind_ok_elim _ _ _ hb
  injection hb2 with hb2
  subst hb2
  exact extractCssUrls_pres P hP env opts b.sources _ _ (by simp [scanDirs])
    src hsrc hpb

theorem inlineScriptFold_pres (P : Store → Prop) (hP : ScanClosed P)
    (env : Env) (opts : Options) (doc : Doc) (s s' : ScanState)
    (h : inlineScriptFold env opts doc s = .ok s') (hp : P s.sources) :
    P s'.sources := by
  refine foldlM_except_pres (fun st => P st.sources) _ ?_ _ s s' h hp
  intro b a b' hb hpb
  simp only [] at hb
  split at hb
  · injection hb with hb
    subst hb
    exact hpb
  · split at hb
    · injection hb with hb
      subst hb
      exact hpb
    · obtain ⟨src, hsrc, hb2⟩ := bind_ok_elim _ _ _ hb
      injection hb2 with hb2
      subst hb2
      rcases resolveAndAdd_ok_cases env opts _ _ _ _ hsrc with heq | ⟨x, heq⟩
      · exact heq ▸ hpb
      · exact heq ▸ hP _ "script-src" x (by simp [scanDirs]) hpb

theorem parse_pres (P : Store → Prop) (hP : ScanClosed P) (env : Env)
    (opts : Options) (html : String) (st st' : ScanState)
    (h : parse env opts html st = .ok st') (hp : P st.sources) :
    P st'.sources := by
  simp only [parse] at h
  obtain ⟨src, h1, h⟩ := bind_ok_elim _ _ _ h
  obtain ⟨s1, h2, h⟩ := bind_ok_elim _ _ _ h
  obtain ⟨s2, h3, h⟩ := bind_ok_elim _ _ _ h
  obtain ⟨s3, h4, h⟩ := bind_ok_elim _ _ _ h
  injection h with h
  subst h
  have p1 := parseSelectors_pres P hP env opts _ st.sources src h1 hp
  have p2 := parseStyleAttrs_pres P hP env opts _ _ s1 h2 p1
  have p3 := parseStyleEls_pres P hP env opts _ _ s2 h3 p2
  exact inlineScriptFold_pres P hP env opts _ _ s3 h4 p3

/-! Assembly lemmas. -/

theorem storeMem_unsafeAdds (opts : Options) (s : ScanState) (d t : String)
    (h : StoreMem d t s.sources) : StoreMem d t (unsafeAdds opts s) := by
  simp only [unsafeAdds]
  split_ifs <;> (repeat' apply storeMem_ensure) <;> exact h

theorem storeMem_trustedTypes (opts : Options) (src : Store) (d t : String)
    (hrtt : d = "require-trusted-types-for" → opts.requireTrustedTypes = false)
    (h : StoreMem d t src) : StoreMem d t (trustedTypesStep opts src) := by
  simp only [trustedTypesStep]
  split_ifs with hr
  · refine storeMem_storeSet_ne d t src _ _ ?_ h
    intro hd
    rw [hrtt hd] at hr
    cases hr
  · exact h

theorem storeMem_mixed (src : Store) (d t : String) (h : StoreMem d t src) :
    StoreMem d t (mixedContentStep src) := by
  simp only [mixedContentStep]
  have step : ∀ (cur : Store) (k : String), StoreMem d t cur →
      StoreMem d t (if !storeHas cur k then storeSet cur k [] else cur) := by
    intro cur k hc
    by_cases hd : d = k
    · subst hd
      obtain ⟨l, hl, ht⟩ := hc
      have hhas : storeHas cur d = true := by simp [storeHas, hl]
      simp only [hhas, Bool.not_true, Bool.false_eq_true, if_false]
      exact ⟨l, hl, ht⟩
    · split_ifs
      · exact storeMem_storeSet_ne d t cur k [] hd hc
      · exact hc
  exact step _ "block-all-mixed-content" (step src "upgrade-insecure-requests" h)

theorem storeMem_defaultFallback (src : Store) (d t : String)
    (h : StoreMem d t src) : StoreMem d t (defaultFallback src) := by
  simp only [defaultFallback]
  split
  · next hnone =>
      have hd : d ≠ "default-src" := by
        rintro rfl
        obtain ⟨l, hl, _⟩ := h
        rw [hl] at hnone
        cases hnone
      exact storeMem_storeSet_ne d t src _ _ hd h
  · next l hsome =>
      split_ifs with he
      · have hd : d ≠ "default-src" := by
          rintro rfl
          obtain ⟨l', hl, ht⟩ := h
          rw [hl] at hsome
          injection hsome with hh
          subst hh
          rw [List.isEmpty_iff] at he
          subst he
          cases ht
        exact storeMem_storeSet_ne d t src _ _ hd h
      · exact h

theorem storeMem_assemble (opts : Options) (s : ScanState) (d t : String)
    (hrtt : d = "require-trusted-types-for" → opts.requireTrustedTypes = false)
    (h : StoreMem d t s.sources) : StoreMem d t (assemble opts s) :=
  storeMem_defaultFallback _ d t (storeMem_mixed _ d t
    (storeMem_trustedTypes opts _ d t hrtt (storeMem_unsafeAdds opts s d t h)))

theorem unsafeAdds_get_ne (opts : Options) (s : ScanState) (d : String)
    (h1 : d ≠ "script-src") (h2 : d ≠ "style-src") :
    storeGet (unsafeAdds opts s) d = storeGet s.sources d := by
  simp only [unsafeAdds]
  split_ifs <;>
    simp only [storeGet_ensure_ne _ "script-src" d _ h1,
      storeGet_ensure_ne _ "style-src" d _ h2]

theorem trustedTypes_get_ne (opts : Options) (src : Store) (d : String)
    (h : d ≠ "require-trusted-types-for") :
    storeGet (trustedTypesStep opts src) d = storeGet src d := by
  simp only [trustedTypesStep]
  split_ifs
  · exact storeGet_storeSet_ne src _ d _ h
  · rfl

theorem mixed_get_ne (src : Store) (d : String)
    (h1 : d ≠ "upgrade-insecure-requests")
    (h2 : d ≠ "block-all-mixed-content") :
    storeGet (mixedContentStep src) d = storeGet src d := by
  simp only [mixedContentStep]
  split_ifs <;>
    simp only [storeGet_storeSet_ne _ "upgrade-insecure-requests" d _ h1,
      storeGet_storeSet_ne _ "block-all-mixed-content" d _ h2]

theorem defaultFallback_get_ne (src : Store) (d : String)
    (h : d ≠ "default-src") :
    storeGet (defaultFallback src) d = storeGet src d := by
  simp only [defaultFallback]
  split
  · exact storeGet_storeSet_ne src _ d _ h
  · split_ifs
    · exact storeGet_storeSet_ne src _ d _ h
    · rfl

/-- The assembly never touches a directive outside its six fixed targets. -/
theorem assemble_get_ne (opts : Options) (s : ScanState) (d : String)
    (h1 : d ≠ "script-src") (h2 : d ≠ "style-src")
    (h3 : d ≠ "require-trusted-types-for")
    (h4 : d ≠ "upgrade-insecure-requests")
    (h5 : d ≠ "block-all-mixed-content") (h6 : d ≠ "default-src") :
    storeGet (assemble opts s) d = storeGet s.sources d := by
  unfold assemble
  rw [defaultFallback_get_ne _ d h6, mixed_get_ne _ d h4 h5,
    trustedTypes_get_ne opts _ d h3, unsafeAdds_get_ne opts s d h1 h2]

/-- The fail-closed fallback: the assembled store's `default-src` is a
non-empty set, `{'none'}` exactly when the scan left it empty or absent. -/
theorem defaultFallback_spec (src : Store) :
    ∃ l, storeGet (defaultFallback src) "default-src" = some l ∧ l ≠ [] ∧
      ((storeGet src "default-src" = none ∨ storeGet src "default-src" = some []) →
        l = ["'none'"]) := by
  simp only [defaultFallback]
  split
  · exact ⟨["'none'"], storeGet_storeSet_self src _ _, by simp, fun _ => rfl⟩
  · next l hsome =>
      cases l with
      | nil =>
        simp only [List.isEmpty_nil, if_true]
        exact ⟨["'none'"], storeGet_storeSet_self src _ _, by simp, fun _ => rfl⟩
      | cons a l =>
        simp only [List.isEmpty_cons, if_false, Bool.false_eq_true]
        refine ⟨a :: l, hsome, by simp, ?_⟩
        rintro (hc | hc) <;> rw [hsome] at hc <;> cases hc

theorem foldl_push_eq_map {α β : Type} (g : α → β) :
    ∀ (l : List α) (acc : List β),
      l.foldl (fun parts p => parts ++ [g p]) acc = acc ++ l.map g := by
  intro l
  induction l with
  | nil => intro acc; simp
  | cons p rest ih =>
    intro acc
    rw [List.foldl_cons, ih]
    simp

theorem serializeParts_eq (s : Store) :
    serializeParts s = s.map (fun p =>
      if p.2.isEmpty then p.1 else p.1 ++ " " ++ String.intercalate " " p.2) := by
  unfold serializeParts
  have hstep : (fun (parts : List String) (p : String × List String) =>
      if p.2.isEmpty then parts ++ [p.1]
      else parts ++ [p.1 ++ " " ++ String.intercalate " " p.2]) =
      fun parts p => parts ++
        [if p.2.isEmpty then p.1 else p.1 ++ " " ++ String.intercalate " " p.2] := by
    funext parts p
    split_ifs <;> rfl
  rw [hstep, foldl_push_eq_map]
  simp

theorem part_mem_of_storeGet (s : Store) (d : String) (l : List String)
    (h : storeGet s d = some l) (hne : l ≠ []) :
    (d ++ " " ++ String.intercalate " " l) ∈ serializeParts s := by
  rw [serializeParts_eq]
  have hmem := storeGet_mem s d l h
  have : l.isEmpty = false := by
    cases l with
    | nil => cases hne rfl
    | cons a l => rfl
  refine List.mem_map.mpr ⟨(d, l), hmem, ?_⟩
  simp [this]

/-! Constructor lemmas. -/

theorem foldl_presets_get_notmem (presets : List (String × List String))
    (s0 : Store) (D : String) (h : ∀ p ∈ presets, p.1 ≠ D) :
    storeGet (presets.foldl (fun s p => storeSet s p.1 (mkSet p.2)) s0) D =
      storeGet s0 D := by
  induction presets generalizing s0 with
  | nil => rfl
  | cons q rest ih =>
    rw [List.foldl_cons]
    rw [ih _ (fun p hp => h p (List.mem_cons_of_mem q hp))]
    exact storeGet_storeSet_ne s0 q.1 D (mkSet q.2)
      (fun hq => h q (List.mem_cons_self q rest) hq.symm)

theorem initialSources_get_of_mem (presets : List (String × List String))
    (D : String) (l : List String)
    (hnodup : (presets.map Prod.fst).Nodup) (hmem : (D, l) ∈ presets) :
    storeGet (initialSources presets) D = some (mkSet l) := by
  unfold initialSources
  suffices haux : ∀ (ps : List (String × List String)) (s0 : Store),
      (ps.map Prod.fst).Nodup → (D, l) ∈ ps →
      storeGet (ps.foldl (fun s p => storeSet s p.1 (mkSet p.2)) s0) D =
        some (mkSet l) from
    haux presets _ hnodup hmem
  intro ps
  induction ps with
  | nil => intro s0 _ hm; cases hm
  | cons q rest ih =>
    intro s0 hnd hm
    rw [List.map_cons, List.nodup_cons] at hnd
    rw [List.foldl_cons]
    rcases List.mem_cons.mp hm with heq | hmem'
    · have hkey : q.1 = D := by rw [← heq]
      have hval : q.2 = l := by rw [← heq]
      rw [foldl_presets_get_notmem rest _ D ?hrest]
      · rw [← hkey, ← hval]
        exact storeGet_storeSet_self s0 q.1 (mkSet q.2)
      · intro p hp hpd
        apply hnd.1
        have hmm : p.1 ∈ rest.map Prod.fst := List.mem_map_of_mem Prod.fst hp
        rw [hpd, ← hkey] at hmm
        exact hmm
    · exact ih _ hnd.2 hmem'

theorem initialSources_get_notmem (presets : List (String × List String))
    (D : String) (hD : ∀ p ∈ presets, p.1 ≠ D) :
    storeGet (initialSources presets) D =
      storeGet [("default-src", ["'self'"]), ("object-src", ["'none'"])] D :=
  foldl_presets_get_notmem presets _ D hD

/-- `generate()` decomposed: a successful final store comes from a
successful fetch, a successful parse and the assembly. -/
theorem finalStore_ok_elim (env : Env) (opts : Options) (r : HttpResponse)
    (fin : Store) (h : finalStore env opts r = .ok fin) :
    ∃ html s, fetchHtml opts r = .ok html ∧
      parse env opts html (initState opts) = .ok s ∧ fin = assemble opts s := by
  simp only [finalStore] at h
  obtain ⟨html, h1, h⟩ := bind_ok_elim _ _ _ h
  obtain ⟨s, h2, h⟩ := bind_ok_elim _ _ _ h
  injection h with h
  exact ⟨html, s, h1, h2, h.symm⟩

end SecCSP

theorem string_mk_data (s : String) : String.mk s.data = s := by
  cases s
  rfl

/-- Trimming is the identity on a single-quote-delimited token. -/
theorem jsTrim_wrap (x : String) : jsTrim ("'" ++ x ++ "'") = "'" ++ x ++ "'" := by
  unfold jsTrim
  have hd : ("'" ++ x ++ "'").data = '\'' :: (x.data ++ ['\'']) := by
    rw [String.data_append, String.data_append]
    rfl
  rw [hd, List.dropWhile_cons]
  simp only [show ('\''.isWhitespace) = false from rfl, Bool.false_eq_true,
    if_false]
  rw [List.reverse_cons, List.reverse_append, List.reverse_singleton,
    List.singleton_append, List.cons_append, List.dropWhile_cons]
  simp only [show ('\''.isWhitespace) = false from rfl, Bool.false_eq_true,
    if_false]
  rw [List.reverse_cons, List.reverse_append, List.reverse_singleton,
    List.reverse_reverse, List.singleton_append, List.cons_append]
  rw [← hd]

theorem jsTrim_inlineToken (env : Env) (scr : Element) (code : String) :
    jsTrim (SecCSP.inlineToken env scr code) = SecCSP.inlineToken env scr code := by
  unfold SecCSP.inlineToken
  split_ifs
  · have h : ("'nonce-" ++ (scr.getAttr "nonce").getD "" : String) =
        "'" ++ ("nonce-" ++ (scr.getAttr "nonce").getD "") := by
      rw [show ("'nonce-" : String) = "'" ++ "nonce-" from rfl,
        String.append_assoc]
    rw [h]
    exact jsTrim_wrap _
  · exact jsTrim_wrap _
  · have h : ("'sha256-" ++ env.sha256base64 code : String) =
        "'" ++ ("sha256-" ++ env.sha256base64 code) := by
      rw [show ("'sha256-" : String) = "'" ++ "sha256-" from rfl,
        String.append_assoc]
    rw [h]
    exact jsTrim_wrap _

namespace SecCSP

/-- A rejected DNS lookup inside the SSRF guard surfaces as `Except.error`
from `resolveAndAdd` — the token is not merely dropped. -/
theorem resolveAndAdd_dns_error (env : Env) (opts : Options) (st : Store)
    (d raw msg : String) (u : URLRec)
    (hq : (strStartsWith (jsTrim raw) "'" || strEndsWith (jsTrim raw) "='") = false)
    (hu : env.resolveURL (jsTrim raw) = some u)
    (hscheme : opts.allowHttp = true ∨ u.protocol = "https:")
    (hpriv : opts.allowPrivateOrigins = false)
    (hlh : u.hostname ≠ "localhost")
    (hlocal : strEndsWith u.hostname ".local" = false)
    (hip : env.isIP u.hostname = false)
    (hdns : env.dnsLookup u.hostname = .error msg) :
    resolveAndAdd env opts st d raw = .error msg := by
  rcases hscheme with hh | hh <;>
    simp [resolveAndAdd, hq, hu, hpriv, hlh, hlocal, hip, hdns, hh]

/-- The incremental size check: a non-zero limit and a chunk total beyond it
always abort the streaming loop. -/
theorem streamLoop_exceeds (maxBodySize : Nat) :
    ∀ (chunks : List Nat) (received : Nat), maxBodySize ≠ 0 →
      received ≤ maxBodySize → received + chunks.sum > maxBodySize →
      streamLoop maxBodySize received chunks =
        .error "Response exceeded maxBodySize" := by
  intro chunks
  induction chunks with
  | nil =>
    intro received hm hle hgt
    simp only [List.sum_nil, Nat.add_zero] at hgt
    exact absurd hle (Nat.not_le_of_gt hgt)
  | cons c rest ih =>
    intro received hm hle hgt
    simp only [streamLoop]
    by_cases hc : received + c > maxBodySize
    · simp [hm, hc]
    · have hle' : received + c ≤ maxBodySize := Nat.le_of_not_lt hc
      have hgt' : received + c + rest.sum > maxBodySize := by
        rw [List.sum_cons] at hgt
        omega
      simp only [hm, hc, ne_eq, not_false_iff, true_and, if_false,
        false_and]
      exact ih (received + c) hm hle' hgt'

theorem selValues_script_cons (raw : String) (rest : Doc) (hne : raw ≠ "") :
    selValues ({ tag := "script", attrs := [("src", raw)], text := "" } :: rest)
      "script" "src" false = raw :: selValues rest "script" "src" false := by
  simp [selValues, selMatches, Element.attrHas, Element.getAttr,
    Element.truthyAttr, List.filter_cons, List.filterMap_cons, List.find?, hne]

/-- A DNS failure while resolving the page's first external script aborts
`parse` with that failure. -/
theorem parse_dns_error (env : Env) (opts : Options) (html raw msg : String)
    (u : URLRec) (rest : Doc) (st : ScanState)
    (hdoc : env.parseHtml html =
      { tag := "script", attrs := [("src", raw)], text := "" } :: rest)
    (hne : raw ≠ "")
    (hq : (strStartsWith (jsTrim raw) "'" || strEndsWith (jsTrim raw) "='") = false)
    (hu : env.resolveURL (jsTrim raw) = some u)
    (hscheme : opts.allowHttp = true ∨ u.protocol = "https:")
    (hpriv : opts.allowPrivateOrigins = false)
    (hlh : u.hostname ≠ "localhost")
    (hlocal : strEndsWith u.hostname ".local" = false)
    (hip : env.isIP u.hostname = false)
    (hdns : env.dnsLookup u.hostname = .error msg) :
    parse env opts html st = .error msg := by
  have hres : ∀ stt, resolveAndAdd env opts stt "script-src" raw = .error msg :=
    fun stt => resolveAndAdd_dns_error env opts stt "script-src" raw msg u
      hq hu hscheme hpriv hlh hlocal hip hdns
  have hps : parseSelectors env opts
      ({ tag := "script", attrs := [("src", raw)], text := "" } :: rest)
      st.sources = .error msg := by
    simp only [parseSelectors, addAll]
    rw [selValues_script_cons raw rest hne, List.foldlM_cons, hres st.sources]
    rfl
  simp only [parse]
  rw [hdoc, hps]
  rfl

/-- The streaming engine's `fetchHtml` never accepts a body whose byte total
exceeds a non-zero `maxBodySize`: one of its two size checks throws. -/
theorem fetchHtml_rejects_oversize (opts : Options) (r : HttpResponse)
    (hok : r.ok = true) (hm : opts.maxBodySize ≠ 0)
    (hsum : r.chunks.sum > opts.maxBodySize) :
    ∃ e, fetchHtml opts r = .error e := by
  simp only [fetchHtml, hok, Bool.not_true, Bool.false_eq_true, if_false]
  by_cases hcl : opts.maxBodySize ≠ 0 ∧
      jsHeaderNum r.contentLength > (opts.maxBodySize : Int)
  · exact ⟨_, by rw [if_pos hcl]⟩
  · rw [if_neg hcl,
      streamLoop_exceeds opts.maxBodySize r.chunks 0 hm (Nat.zero_le _)
        (by simpa using hsum)]
    exact ⟨_, rfl⟩

/-- The origin policy of the Node engines: whenever `resolveAndAdd` changes
the store on a non-quoted token, the token resolved to a URL whose scheme
passed the HTTPS check and — unless private origins are allowed — whose
host is neither `localhost` nor `.local`, is no private literal IP, and has
no private DNS answer. -/
theorem resolveAndAdd_origin_policy (env : Env) (opts : Options) (st : Store)
    (d raw : String) (st' : Store)
    (h : resolveAndAdd env opts st d raw = .ok st')
    (hq : (strStartsWith (jsTrim raw) "'" || strEndsWith (jsTrim raw) "='") = false)
    (hchange : st' ≠ st) :
    ∃ u, env.resolveURL (jsTrim raw) = some u ∧
      st' = ensureSetAdd st d u.origin ∧
      (opts.allowHttp = true ∨ u.protocol = "https:") ∧
      (opts.allowPrivateOrigins = true ∨
        (u.hostname ≠ "localhost" ∧ strEndsWith u.hostname ".local" = false ∧
         (env.isIP u.hostname = true → isPrivateIp u.hostname = false) ∧
         (env.isIP u.hostname = false →
           ∃ addrs, env.dnsLookup u.hostname = .ok addrs ∧
             ∀ a ∈ addrs, isPrivateIp a = false))) := by
  simp only [resolveAndAdd, hq, Bool.false_eq_true, if_false] at h
  split at h
  · exact absurd (by injection h with h; exact h.symm) hchange
  · rename_i u hu
    split at h
    · exact absurd (by injection h with h; exact h.symm) hchange
    · rename_i hsch
      have hscheme : opts.allowHttp = true ∨ u.protocol = "https:" := by
        by_cases ha : opts.allowHttp = true
        · exact Or.inl ha
        · right
          by_contra hp
          exact hsch (by simp [Bool.not_eq_true] at ha ⊢; simp [ha, hp])
      split at h
      · rename_i hpr
        split at h
        · exact absurd (by injection h with h; exact h.symm) hchange
        · rename_i hloc
          have hlh : u.hostname ≠ "localhost" := fun he => hloc (Or.inl he)
          have hlocal : strEndsWith u.hostname ".local" = false := by
            by_contra he
            exact hloc (Or.inr (by revert he; cases strEndsWith u.hostname ".local" <;> simp))
          split at h
          · rename_i hipT
            split at h
            · exact absurd (by injection h with h; exact h.symm) hchange
            · rename_i hprivF
              refine ⟨u, hu, by injection h with h; exact h.symm, hscheme,
                Or.inr ⟨hlh, hlocal, fun _ => ?_, fun hc => absurd hipT (by simp [hc])⟩⟩
              revert hprivF
              cases isPrivateIp u.hostname <;> simp
          · rename_i hipF
            split at h
            · exact Except.noConfusion h
            · rename_i addrs hdns
              split at h
              · exact absurd (by injection h with h; exact h.symm) hchange
              · rename_i hany
                refine ⟨u, hu, by injection h with h; exact h.symm, hscheme,
                  Or.inr ⟨hlh, hlocal, fun hc => absurd hc (by simp [Bool.not_eq_true] at hipF ⊢; simp [hipF]), fun _ => ⟨addrs, hdns, ?_⟩⟩⟩
                intro a ha
                have : addrs.any isPrivateIp = false := by
                  revert hany
                  cases addrs.any isPrivateIp <;> simp
                rw [List.any_eq_false] at this
                have hfa := this a ha
                revert hfa
                cases isPrivateIp a <;> simp
      · rename_i hprT
        have hpa : opts.allowPrivateOrigins = true := by
          revert hprT
          cases opts.allowPrivateOrigins <;> simp
        exact ⟨u, hu, by injection h with h; exact h.symm, hscheme, Or.inl hpa⟩

/-- The quoted-token fast path of `resolveAndAdd`, shared by several
results: a trimmed token opening with `'` or closing with `='` is added
verbatim, with no oracle consulted. -/
theorem resolveAndAdd_quoted (env : Env) (opts : Options) (st : Store)
    (d raw : String)
    (h : (strStartsWith (jsTrim raw) "'" || strEndsWith (jsTrim raw) "='") = true) :
    resolveAndAdd env opts st d raw = .ok (ensureSetAdd st d (jsTrim raw)) := by
  simp [resolveAndAdd, h]

theorem strStartsWith_quote_append (x : String) :
    strStartsWith ("'" ++ x) "'" = true := by
  unfold strStartsWith
  rw [String.data_append, show ("'" : String).data = ['\''] from rfl]
  simp [List.isPrefixOf]

/-- Every classifier token opens with a single quote. -/
theorem inlineToken_quoted (env : Env) (scr : Element) (code : String) :
    strStartsWith (inlineToken env scr code) "'" = true := by
  unfold inlineToken
  split_ifs
  · rw [show ("'nonce-" ++ (scr.getAttr "nonce").getD "" ++ "'" : String) =
      "'" ++ ("nonce-" ++ (scr.getAttr "nonce").getD "" ++ "'") from rfl]
    exact strStartsWith_quote_append _
  · rw [show ("'" ++ (scr.getAttr "integrity").getD "" ++ "'" : String) =
      "'" ++ ((scr.getAttr "integrity").getD "" ++ "'") from rfl]
    exact strStartsWith_quote_append _
  · rw [show ("'sha256-" ++ env.sha256base64 code ++ "'" : String) =
      "'" ++ ("sha256-" ++ env.sha256base64 code ++ "'") from rfl]
    exact strStartsWith_quote_append _

end SecCSP

/-! The claims. -/

/-- C5: after trimming, a raw candidate that begins with `'` or ends with
`='` is added verbatim to the target directive's set; no URL resolution,
scheme check or SSRF check applies — the result is the same for every
collaborator set and every policy configuration, as the statement's
unconstrained `env` and `opts` show. -/
theorem c5_quoted_token_verbatim (env : Env) (opts : Options) (st : Store)
    (d raw : String)
    (h : (strStartsWith (jsTrim raw) "'" || strEndsWith (jsTrim raw) "='") = true) :
    SecCSP.resolveAndAdd env opts st d raw = .ok (ensureSetAdd st d (jsTrim raw)) :=
  SecCSP.resolveAndAdd_quoted env opts st d raw h

theorem c5_quoted_token_verbatim_witness :
    SecCSP.resolveAndAdd envTriv {} [] "script-src" " 'self' " =
      .ok (ensureSetAdd [] "script-src" (jsTrim " 'self' ")) :=
  c5_quoted_token_verbatim envTriv {} [] "script-src" " 'self' " (by decide)

/-- C9: the serialisation loop emits, for each directive in store iteration
order, the bare name for an empty token set and otherwise the name followed
by the space-separated tokens, all entries joined by `"; "` — so flag
directives such as `upgrade-insecure-requests` serialize as their bare
name. -/
theorem c9_serialization_format (s : Store) :
    SecCSP.serialize s = String.intercalate "; " (s.map (fun p =>
      if p.2.isEmpty then p.1 else p.1 ++ " " ++ String.intercalate " " p.2)) := by
  unfold SecCSP.serialize
  rw [SecCSP.serializeParts_eq]

/-- C8: with nonce generation disabled (`useNonce = false`, no custom
nonce), the produced header does not depend on the random value the nonce
generator would have produced: two runs over the same fetched content and
configuration agree character for character. Inline-script hashing is the
deterministic SHA-256 collaborator, fixed inside `env`. -/
theorem c8_nonce_disabled_idempotent (env : Env)
    (nopts : NonceVar.NonceOptions) (r : HttpResponse) (r1 r2 : String)
    (hN : nopts.useNonce = false) (hC : nopts.customNonce = "") :
    NonceVar.generate env r1 nopts r = NonceVar.generate env r2 nopts r := by
  simp [NonceVar.generate, NonceVar.nonceValue, hN, hC]

theorem c8_nonce_disabled_idempotent_witness :
    NonceVar.generate envTriv "RANDOM-A" { useNonce := false } respTriv =
      NonceVar.generate envTriv "RANDOM-B" { useNonce := false } respTriv :=
  c8_nonce_disabled_idempotent envTriv { useNonce := false } respTriv
    "RANDOM-A" "RANDOM-B" rfl rfl

/-- C2 (amended): in the `resolveAndAdd`-based engines, an inline script
element (no `src`) with non-empty trimmed text emits exactly one token to
script-src, chosen by priority — the element's nonce, else its quoted
integrity value, else the base64 SHA-256 of the trimmed text — and an
empty-text script emits nothing (though it still sets the inline-script
flag). The browser variant behaves differently (see the counterexample). -/
theorem c2_inline_script_classifier (env : Env) (opts : Options)
    (s : SecCSP.ScanState) (scr : Element)
    (htag : scr.tag = "script") (hsrc : scr.attrHas "src" = false) :
    (jsTrim scr.text ≠ "" →
      SecCSP.inlineScriptFold env opts [scr] s =
        .ok { s with detectedInlineScript := true,
                     sources := ensureSetAdd s.sources "script-src"
                       (SecCSP.inlineToken env scr (jsTrim scr.text)) }) ∧
    (jsTrim scr.text = "" →
      SecCSP.inlineScriptFold env opts [scr] s =
        .ok { s with detectedInlineScript := true }) := by
  have hfilter : List.filter (fun e => decide (e.tag = "script")) [scr] = [scr] := by
    simp [List.filter_cons, htag]
  constructor
  · intro hne
    have hcond : (strStartsWith (jsTrim (SecCSP.inlineToken env scr (jsTrim scr.text))) "'" ||
        strEndsWith (jsTrim (SecCSP.inlineToken env scr (jsTrim scr.text))) "='") = true := by
      rw [jsTrim_inlineToken, SecCSP.inlineToken_quoted]
      rfl
    have hres := SecCSP.resolveAndAdd_quoted env opts s.sources "script-src"
      (SecCSP.inlineToken env scr (jsTrim scr.text)) hcond
    rw [jsTrim_inlineToken] at hres
    simp only [SecCSP.inlineScriptFold, hfilter, List.foldlM_cons,
      List.foldlM_nil, hsrc, Bool.false_eq_true, if_false, hne, hres]
    rfl
  · intro hempty
    simp only [SecCSP.inlineScriptFold, hfilter, List.foldlM_cons,
      List.foldlM_nil, hsrc, Bool.false_eq_true, if_false, hempty]
    rfl

theorem c2_inline_script_classifier_witness :
    SecCSP.inlineScriptFold envTriv {} [scrNonce] (SecCSP.initState {}) =
      .ok { SecCSP.initState {} with
              detectedInlineScript := true,
              sources := ensureSetAdd (SecCSP.initState {}).sources "script-src"
                (SecCSP.inlineToken envTriv scrNonce (jsTrim scrNonce.text)) } :=
  (c2_inline_script_classifier envTriv {} (SecCSP.initState {}) scrNonce
    rfl (by decide)).1 (by decide)

/-- C2 (counterexample): the browser variant, one of the claim's cited
scanners, does not implement the nonce/integrity/hash priority: with its
default configuration (`useHashes = false`, `useNonce = false`) an inline
script with non-empty text emits no token at all to script-src — the
directive is absent from the final header — though the element was seen
(the inline-script flag is set). -/
theorem c2_browser_inline_emits_nothing :
    (Browser.parse benvInline {} ""
      (SecCSP.initState ({} : Browser.BrowserOptions).toOptions)).detectedInlineScript = true ∧
    storeGet (Browser.parse benvInline {} ""
      (SecCSP.initState ({} : Browser.BrowserOptions).toOptions)).sources "script-src" = none ∧
    Browser.generate benvInline {} respTriv =
      .ok "default-src 'self'; object-src 'none'; upgrade-insecure-requests; block-all-mixed-content" := by
  decide

/-- C4: in every header `generate()` returns, the `default-src` directive
carries a non-empty token set whose entry appears in the serialized parts;
and whenever nothing resolved into `default-src` (its set is empty or
absent when the fallback runs), the assembly replaces it with `{'none'}`. -/
theorem c4_default_src_never_empty :
    (∀ env opts r fin, SecCSP.finalStore env opts r = .ok fin →
      ∃ l, storeGet fin "default-src" = some l ∧ l ≠ [] ∧
        ("default-src " ++ String.intercalate " " l) ∈ SecCSP.serializeParts fin ∧
        SecCSP.generate env opts r = .ok (SecCSP.serialize fin)) ∧
    (∀ opts s, (storeGet s.sources "default-src" = none ∨
        storeGet s.sources "default-src" = some []) →
      storeGet (SecCSP.assemble opts s) "default-src" = some ["'none'"]) := by
  constructor
  · intro env opts r fin hfin
    obtain ⟨html, s, hf, hp, rfl⟩ := SecCSP.finalStore_ok_elim env opts r fin hfin
    obtain ⟨l, hl, hne, _⟩ := SecCSP.defaultFallback_spec
      (SecCSP.mixedContentStep (SecCSP.trustedTypesStep opts (SecCSP.unsafeAdds opts s)))
    have hl' : storeGet (SecCSP.assemble opts s) "default-src" = some l := hl
    refine ⟨l, hl', hne, ?_, ?_⟩
    · exact SecCSP.part_mem_of_storeGet _ _ l hl' hne
    · simp only [SecCSP.generate]
      rw [hfin]
      rfl
  · intro opts s hcase
    have hstep : storeGet (SecCSP.mixedContentStep (SecCSP.trustedTypesStep opts
        (SecCSP.unsafeAdds opts s))) "default-src" =
        storeGet s.sources "default-src" := by
      rw [SecCSP.mixed_get_ne _ _ (by decide) (by decide),
        SecCSP.trustedTypes_get_ne opts _ _ (by decide),
        SecCSP.unsafeAdds_get_ne opts s _ (by decide) (by decide)]
    obtain ⟨l, hl, _, hcond⟩ := SecCSP.defaultFallback_spec
      (SecCSP.mixedContentStep (SecCSP.trustedTypesStep opts (SecCSP.unsafeAdds opts s)))
    have hnone : l = ["'none'"] := by
      apply hcond
      rw [hstep]
      exact hcase
    have hl' : storeGet (SecCSP.assemble opts s) "default-src" = some l := hl
    rw [hl', hnone]

/-- C6 (counterexample): a token preset for `require-trusted-types-for` is
not kept verbatim when `requireTrustedTypes` is set — the assembly
overwrites the whole set with `{'script'}`, so the preset token
`'preset-token'` is gone from the final header. -/
theorem c6_trusted_types_preset_clobbered :
    optsRttPreset.presets =
      [("require-trusted-types-for", ["'preset-token'"])] ∧
    (SecCSP.finalStore envTriv optsRttPreset respTriv).map
      (fun f => storeGet f "require-trusted-types-for") = .ok (some ["'script'"]) := by
  constructor
  · rfl
  · decide

/-- C6 (amended): a preset token for directive `D` appears verbatim in
`D`'s token list of the final header — unless `D` is
`require-trusted-types-for` while `requireTrustedTypes` is enabled, in
which case the assembly overwrites that one set with `{'script'}`. -/
theorem c6_preset_tokens_verbatim (env : Env) (opts : Options)
    (r : HttpResponse) (fin : Store) (D t : String) (l : List String)
    (hnodup : (opts.presets.map Prod.fst).Nodup)
    (hmem : (D, l) ∈ opts.presets) (ht : t ∈ l)
    (hrtt : D = "require-trusted-types-for" → opts.requireTrustedTypes = false)
    (hfin : SecCSP.finalStore env opts r = .ok fin) :
    ∃ l', storeGet fin D = some l' ∧ t ∈ l' ∧
      (D ++ " " ++ String.intercalate " " l') ∈ SecCSP.serializeParts fin := by
  obtain ⟨html, s, hf, hp, rfl⟩ := SecCSP.finalStore_ok_elim env opts r fin hfin
  have h0 : StoreMem D t (SecCSP.initState opts).sources := by
    refine ⟨mkSet l, ?_, mem_mkSet l t ht⟩
    exact SecCSP.initialSources_get_of_mem opts.presets D l hnodup hmem
  have hclosed : SecCSP.ScanClosed (StoreMem D t) :=
    fun st dd x _ hm => storeMem_ensure D t st dd x hm
  have h1 : StoreMem D t s.sources :=
    SecCSP.parse_pres (StoreMem D t) hclosed env opts html _ s hp h0
  have h2 : StoreMem D t (SecCSP.assemble opts s) :=
    SecCSP.storeMem_assemble opts s D t hrtt h1
  obtain ⟨l', hl', ht'⟩ := h2
  refine ⟨l', hl', ht', ?_⟩
  exact SecCSP.part_mem_of_storeGet _ D l' hl'
    (fun hnil => by rw [hnil] at ht'; cases ht')

theorem c6_preset_tokens_verbatim_witness :
    ∃ l', storeGet finConnectPreset "connect-src" = some l' ∧
      "https://api.example.com" ∈ l' ∧
      ("connect-src" ++ " " ++ String.intercalate " " l') ∈
        SecCSP.serializeParts finConnectPreset :=
  c6_preset_tokens_verbatim envTriv optsConnectPreset respTriv
    finConnectPreset "connect-src" "https://api.example.com"
    ["https://api.example.com"] (by decide) (by decide) (by decide)
    (by decide) (by decide)

/-- C7: a DNS lookup failure while resolving a single candidate token (here
the page's first external script, a hostname whose lookup the resolver
rejects) is not recovered: `parse` aborts, the failure propagates out of
`generate()`, and no header store is produced. -/
theorem c7_dns_failure_aborts_generate (env : Env) (opts : Options)
    (r : HttpResponse) (html raw msg : String) (u : URLRec) (rest : Doc)
    (hfetch : SecCSP.fetchHtml opts r = .ok html)
    (hdoc : env.parseHtml html =
      { tag := "script", attrs := [("src", raw)], text := "" } :: rest)
    (hne : raw ≠ "")
    (hq : (strStartsWith (jsTrim raw) "'" || strEndsWith (jsTrim raw) "='") = false)
    (hu : env.resolveURL (jsTrim raw) = some u)
    (hscheme : opts.allowHttp = true ∨ u.protocol = "https:")
    (hpriv : opts.allowPrivateOrigins = false)
    (hlh : u.hostname ≠ "localhost")
    (hlocal : strEndsWith u.hostname ".local" = false)
    (hip : env.isIP u.hostname = false)
    (hdns : env.dnsLookup u.hostname = .error msg) :
    SecCSP.finalStore env opts r = .error msg ∧
    SecCSP.generate env opts r = .error msg := by
  have hparse : SecCSP.parse env opts html (SecCSP.initState opts) = .error msg :=
    SecCSP.parse_dns_error env opts html raw msg u rest _ hdoc hne hq hu
      hscheme hpriv hlh hlocal hip hdns
  have hfs : SecCSP.finalStore env opts r = .error msg := by
    simp only [SecCSP.finalStore]
    rw [hfetch]
    show (SecCSP.parse env opts html (SecCSP.initState opts) >>= _) = _
    rw [hparse]
    rfl
  refine ⟨hfs, ?_⟩
  simp only [SecCSP.generate]
  rw [hfs]
  rfl

theorem c7_dns_failure_aborts_generate_witness :
    SecCSP.finalStore envDnsFail {} respTriv =
      .error "EAI_AGAIN internal.example.com" ∧
    SecCSP.generate envDnsFail {} respTriv =
      .error "EAI_AGAIN internal.example.com" :=
  c7_dns_failure_aborts_generate envDnsFail {} respTriv ""
    "https://internal.example.com/a.js" "EAI_AGAIN internal.example.com"
    { protocol := "https:", hostname := "internal.example.com",
      origin := "https://internal.example.com" } [] (by decide) (by decide)
    (by decide) (by decide) (by decide) (Or.inr rfl) rfl (by decide)
    (by decide) rfl rfl

/-- C10: with no `object-src` preset, the directive is seeded `{'none'}` at
construction, no scanning or assembly step touches it, and every final
header carries the entry `object-src 'none'` exactly. -/
theorem c10_object_src_locked (env : Env) (opts : Options) (r : HttpResponse)
    (fin : Store) (hps : ∀ p ∈ opts.presets, p.1 ≠ "object-src")
    (hfin : SecCSP.finalStore env opts r = .ok fin) :
    storeGet fin "object-src" = some ["'none'"] ∧
    ("object-src 'none'") ∈ SecCSP.serializeParts fin ∧
    SecCSP.generate env opts r = .ok (SecCSP.serialize fin) := by
  obtain ⟨html, s, hf, hp, rfl⟩ := SecCSP.finalStore_ok_elim env opts r fin hfin
  have h0 : storeGet (SecCSP.initState opts).sources "object-src" =
      some ["'none'"] := by
    have := SecCSP.initialSources_get_notmem opts.presets "object-src" hps
    rw [SecCSP.initState]
    rw [this]
    decide
  have hclosed : SecCSP.ScanClosed
      (fun st => storeGet st "object-src" = some ["'none'"]) := by
    intro st dd x hdd hv
    have hne : ("object-src" : String) ≠ dd := by
      simp only [SecCSP.scanDirs, List.mem_cons, List.mem_singleton,
        List.not_mem_nil, or_false] at hdd
      rcases hdd with rfl | rfl | rfl | rfl | rfl <;> decide
    rw [storeGet_ensure_ne st dd "object-src" x hne]
    exact hv
  have h1 : storeGet s.sources "object-src" = some ["'none'"] :=
    SecCSP.parse_pres _ hclosed env opts html _ s hp h0
  have h2 : storeGet (SecCSP.assemble opts s) "object-src" = some ["'none'"] := by
    rw [SecCSP.assemble_get_ne opts s "object-src" (by decide) (by decide)
      (by decide) (by decide) (by decide) (by decide)]
    exact h1
  refine ⟨h2, ?_, ?_⟩
  · exact SecCSP.part_mem_of_storeGet _ _ _ h2 (by decide)
  · simp only [SecCSP.generate]
    rw [hfin]
    rfl

theorem c10_object_src_locked_witness :
    storeGet finTriv "object-src" = some ["'none'"] ∧
    ("object-src 'none'") ∈ SecCSP.serializeParts finTriv ∧
    SecCSP.generate envTriv {} respTriv = .ok (SecCSP.serialize finTriv) :=
  c10_object_src_locked envTriv {} respTriv finTriv
    (by intro p hp; cases hp) (by decide)

/-- C1 (failing run): the browser variant's scanner performs no origin
validation at all: with `allowHttp = false` (and `allowPrivateOrigins =
false`) a page whose only resource is
`<script src="http://insecure.example.com/a.js">` still yields a header
whose script-src carries that raw `http://` URL — the accepted origin
token's scheme is not https, contradicting the claimed invariant. The Node
engines do satisfy it: see `SecCSP.resolveAndAdd_origin_policy`. -/
theorem c1_browser_scanner_accepts_http_origin :
    (Browser.finalStore benvHttp {} respTriv).map
      (fun f => storeGet f "script-src") =
        .ok (some ["http://insecure.example.com/a.js"]) ∧
    Browser.generate benvHttp {} respTriv =
      .ok "default-src 'self'; object-src 'none'; script-src http://insecure.example.com/a.js; upgrade-insecure-requests; block-all-mixed-content" := by
  constructor
  · decide
  · decide

/-- C3 (failing run): the text-based `fetchHtml` of the jsdom+nonce and
cheerio variants compares the decoded string's UTF-16 length — not its byte
count — against `maxBodySize`, and only after buffering. For the
two-character, four-byte body `éé` with no `content-length` header and
`maxBodySize = 3`, the response body exceeds the limit in bytes yet the
fetch succeeds and a header is returned. The streaming engine rejects the
same body: see `SecCSP.fetchHtml_rejects_oversize` and the closing
conjunct. -/
theorem c3_text_fetch_accepts_oversized_bytes :
    ("éé" : String).utf8ByteSize = 4 ∧ utf16Length "éé" = 2 ∧
    NonceVar.fetchHtmlText { maxBodySize := 3 } respMultibyte = .ok "éé" ∧
    NonceVar.generate envTriv "R"
      { toOptions := { maxBodySize := 3 }, useNonce := false } respMultibyte =
      .ok "default-src 'self'; object-src 'none'; upgrade-insecure-requests; block-all-mixed-content" ∧
    SecCSP.fetchHtml { maxBodySize := 3 } respMultibyte =
      .error "Response exceeded maxBodySize" := by
  refine ⟨?_, ?_, ?_, ?_, ?_⟩ <;> decide

end CSP
